import Mathlib

/-!
# Formal model of the TMSV2 Modbus polling and weighbridge weighing subsystems

A shallow embedding, in Lean 4, of the register-reading / polling code in
`src/modules/product/modbus.py`, the snapshot consumer in
`src/modules/product/loadingarm.py`, and the weighing-session workflow in
`src/modules/product/weighbridge.py`, together with theorems settling the
behavioural claims made about those functions.

Modelling conventions:

* Python dictionaries are modelled as association lists with first-match
  lookup (`dget`), first-match replace-or-append assignment (`dsetList`,
  which is Python `d[k] = v`), and left-to-right merge (`dictUpdate`,
  which is Python `d.update(other)`).
* The dictionaries flowing over the `data_updated` signal carry keys of
  three distinct Python shapes: plain `int` mapping ids (the per-cycle
  snapshot built in `read_device_data`), `(slaveAddress, mappingId)`
  tuples (`self.last_values`), and `(entityId, column)` tuples (the keys
  probed by `update_loading_arms_from_modbus`).  `DKey` is the sum of the
  three shapes; distinct shapes never compare equal, exactly as distinct
  Python key values never compare equal.
* Numeric register values, scale factors and weights are modelled as exact
  rationals (`ℚ`): the claims under study assert exact arithmetic
  identities (`scaled = raw * scaleFactor + offset`, `net = gross - tare`)
  and no claim concerns floating-point rounding.
* The pymodbus serial client is an oracle `Client` mapping a
  `(slaveAddress, functionCode, registerAddress)` triple to one of:
  a successful raw value, an error response (`result.isError()`), or a
  raised `ModbusException`.
* Side effects (Qt signal emissions, log-visible read attempts, stored
  procedure calls) are modelled as event lists threaded through an explicit
  `ModbusState` / `WeighbridgeState`.  Wall-clock timestamps (`GETDATE()`,
  `datetime.now()`) are passed in or omitted; no claim depends on them.
* The SQL `ORDER BY` clauses of `fetch_slaves` / `fetch_register_mappings`
  are modelled as stable sorts (`List.insertionSort`), and the grouping of
  mapping rows into the per-slave dictionary as an order-preserving filter.
* The database consulted by `start_new_weighing` is external and shared:
  its two round trips (availability check, update) are modelled as two
  table snapshots `ordersAtCheck` / `ordersAtUpdate`, which coincide in the
  single-client case and may differ under a concurrent writer.
-/

namespace TMSV2

/-! ## Python dictionary model -/

/-- The key shapes that occur in the dictionaries of the Modbus subsystem:
`mid` is a plain `int` mapping id (per-cycle snapshot entries), `pair` is a
`(slaveAddress, mappingId)` tuple (`last_values` entries), `col` is an
`(entityId, column)` tuple (the probe keys of the loading-arm projector). -/
inductive DKey where
  | mid (mappingId : ℕ)
  | pair (slaveAddress mappingId : ℕ)
  | col (entityId : ℕ) (column : String)
deriving DecidableEq, Repr

/-- Python dict lookup: first entry with the given key. -/
def dget {κ α : Type} [DecidableEq κ] (k : κ) : List (κ × α) → Option α
  | [] => none
  | e :: es => if e.1 = k then some e.2 else dget k es

/-- Python dict assignment `d[k] = v`: replace the entry in place if the key
is present, append it otherwise. -/
def dsetList {κ α : Type} [DecidableEq κ] (k : κ) (v : α) : List (κ × α) → List (κ × α)
  | [] => [(k, v)]
  | e :: es => if e.1 = k then (k, v) :: es else e :: dsetList k v es

/-- Python `d.update(other)`: assign every entry of `other` into `d`, left to
right. -/
def dictUpdate {κ α : Type} [DecidableEq κ] (d other : List (κ × α)) : List (κ × α) :=
  other.foldl (fun acc e => dsetList e.1 e.2 acc) d

/-! ## Data model: slave devices and register mappings

Fields mirror the columns selected by `fetch_slaves` and
`fetch_register_mappings` that the polling code reads.  Serial-line
parameters (baudrate, parity, …) configure the transport and are not read
by the polling loop, so they are not part of the record. -/

structure SlaveDevice where
  SlaveAddress : ℕ
  SlaveName : String
deriving DecidableEq, Repr

structure RegisterMapping where
  MappingId : ℕ
  SlaveAddress : ℕ
  RegisterAddress : ℕ
  FunctionCode : ℕ
  MappedTable : String
  MappedColumn : String
  MappedEntityId : ℕ
  ScaleFactor : ℚ
  Offset : ℚ
deriving DecidableEq, Repr

/-- Outcome of one physical register read, as seen by `read_register`:
a raw register/bit value, a device error response (`result.isError()`),
or a raised `ModbusException`. -/
inductive ReadResponse where
  | ok (raw : ℕ)
  | errorResponse
  | modbusException
deriving DecidableEq, Repr

/-- The pymodbus client as an oracle: the response of the bus to one read of
`(slaveAddress, functionCode, registerAddress)`. -/
def Client : Type := ℕ → ℕ → ℕ → ReadResponse

/-- Observable state of `ModbusModule` threaded through the reading code:
the `last_values` cache, the emitted `current_weight_updated` events, the
`UpdateMappedModbusValue` stored-procedure calls, the `error_occurred`
emissions, and the trace of attempted reads
`(slaveAddress, registerAddress, mappingId)` (the log line at the top of
`read_register`). -/
structure ModbusState where
  lastValues : List (DKey × ℚ)
  currentWeightEvents : List (ℕ × ℚ)
  dbValueUpdates : List (ℕ × ℚ)
  errorEvents : List String
  readAttempts : List (ℕ × ℕ × ℕ)
deriving DecidableEq, Repr

def ModbusState.initial : ModbusState :=
  ⟨[], [], [], [], []⟩

/-! ## `read_register` (modbus.py lines 196-239) -/

/-- `ModbusModule.read_register`.  Dispatches on the function code
(1 → coils, 2 → discrete inputs, 3 → holding registers, 4 → input
registers; anything else logs and returns `None`).  On a successful
response the raw value is scaled (`raw * ScaleFactor + Offset`), cached in
`last_values` under the `(slave_address, MappingId)` tuple, and routed
either to the `current_weight_updated` signal (Weighbridge/CurrentWeight
mappings) or to `update_database_value`.  Error responses and
`ModbusException`s yield `None` without touching the cache. -/
def read_register (client : Client) (s : ModbusState) (slave_address : ℕ)
    (mapping : RegisterMapping) : Option ℚ × ModbusState :=
  let s := { s with readAttempts :=
    s.readAttempts ++ [(slave_address, mapping.RegisterAddress, mapping.MappingId)] }
  if mapping.FunctionCode = 1 ∨ mapping.FunctionCode = 2 ∨
      mapping.FunctionCode = 3 ∨ mapping.FunctionCode = 4 then
    match client slave_address mapping.FunctionCode mapping.RegisterAddress with
    | .ok raw =>
      let scaled_value : ℚ := (raw : ℚ) * mapping.ScaleFactor + mapping.Offset
      let s := { s with lastValues :=
        (dsetList (DKey.pair slave_address mapping.MappingId) scaled_value s.lastValues) }
      let s :=
        if mapping.MappedTable = "Weighbridge" ∧ mapping.MappedColumn = "CurrentWeight" then
          { s with currentWeightEvents :=
            s.currentWeightEvents ++ [(mapping.MappedEntityId, scaled_value)] }
        else
          { s with dbValueUpdates := s.dbValueUpdates ++ [(mapping.MappingId, scaled_value)] }
      (some scaled_value, s)
    | .errorResponse => (none, s)
    | .modbusException =>
      (none, { s with errorEvents := s.errorEvents ++ ["Modbus read error"] })
  else
    (none, s)

/-! ## `read_device_data` and `read_all_slaves` (modbus.py lines 249-278) -/

/-- The `for mapping in self.register_mappings.get(...)` loop of
`read_device_data`: successful reads are entered into the cycle dictionary
under the plain mapping id (`data[mapping['MappingId']] = result`), failed
reads are skipped. -/
def readMappingsLoop (client : Client) (slave_address : ℕ) :
    List RegisterMapping → List (DKey × ℚ) → ModbusState → List (DKey × ℚ) × ModbusState
  | [], data, s => (data, s)
  | m :: rest, data, s =>
    match read_register client s slave_address m with
    | (some v, s2) =>
      readMappingsLoop client slave_address rest (dsetList (DKey.mid m.MappingId) v data) s2
    | (none, s2) => readMappingsLoop client slave_address rest data s2

/-- `ModbusModule.read_device_data`.  The surrounding `try/except` can only
fire on an uninitialised client (a `ValueError` escaping `read_register`),
which the oracle model excludes, so the loop result is returned directly. -/
def read_device_data (client : Client) (regMap : ℕ → List RegisterMapping)
    (device : SlaveDevice) (s : ModbusState) : List (DKey × ℚ) × ModbusState :=
  readMappingsLoop client device.SlaveAddress (regMap device.SlaveAddress) [] s

/-- The `for device in self.slaves` loop of `read_all_slaves`: per-device
dictionaries are merged into `new_data` (`new_data.update(data)`); a falsy
(empty) per-device dictionary is skipped with a warning. -/
def readSlavesLoop (client : Client) (regMap : ℕ → List RegisterMapping) :
    List SlaveDevice → List (DKey × ℚ) → ModbusState → List (DKey × ℚ) × ModbusState
  | [], new_data, s => (new_data, s)
  | device :: rest, new_data, s =>
    match read_device_data client regMap device s with
    | (data, s2) =>
      if data.isEmpty then readSlavesLoop client regMap rest new_data s2
      else readSlavesLoop client regMap rest (dictUpdate new_data data) s2

/-- `ModbusModule.read_all_slaves`: one full poll cycle over the fetched
device list; the returned dictionary is the snapshot emitted on `data_read`
and re-emitted to subscribers as `data_updated`. -/
def read_all_slaves (client : Client) (slaves : List SlaveDevice)
    (regMap : ℕ → List RegisterMapping) (s : ModbusState) : List (DKey × ℚ) × ModbusState :=
  readSlavesLoop client regMap slaves [] s

/-! ## Fetching: the `ORDER BY` clauses and per-slave grouping
(modbus.py lines 121-159) -/

/-- `fetch_slaves` orders its rows by `SlaveAddress` (`ORDER BY
SlaveAddress`), modelled as a stable sort of the repository rows. -/
def fetch_slaves (rows : List SlaveDevice) : List SlaveDevice :=
  List.insertionSort (fun a b => a.SlaveAddress ≤ b.SlaveAddress) rows

/-- The sort order of `fetch_register_mappings` (`ORDER BY rm.SlaveAddress,
rm.RegisterAddress`). -/
def mappingLE (a b : RegisterMapping) : Prop :=
  a.SlaveAddress < b.SlaveAddress ∨
    (a.SlaveAddress = b.SlaveAddress ∧ a.RegisterAddress ≤ b.RegisterAddress)

instance : DecidableRel mappingLE := fun a b => by
  unfold mappingLE; infer_instance

instance : IsTotal SlaveDevice (fun a b => a.SlaveAddress ≤ b.SlaveAddress) :=
  ⟨fun a b => Nat.le_total a.SlaveAddress b.SlaveAddress⟩

instance : IsTrans SlaveDevice (fun a b => a.SlaveAddress ≤ b.SlaveAddress) :=
  ⟨fun _ _ _ h1 h2 => Nat.le_trans h1 h2⟩

instance : IsTotal RegisterMapping mappingLE :=
  ⟨fun a b => by unfold mappingLE; omega⟩

instance : IsTrans RegisterMapping mappingLE :=
  ⟨fun a b c h1 h2 => by unfold mappingLE at h1 h2 ⊢; omega⟩

/-- Non-strict lexicographic order on `(slaveAddress, registerAddress)`
pairs. -/
def addrPairLE (x y : ℕ × ℕ) : Prop :=
  x.1 < y.1 ∨ (x.1 = y.1 ∧ x.2 ≤ y.2)

/-- Strict lexicographic order on `(slaveAddress, registerAddress)` pairs. -/
def addrPairLT (x y : ℕ × ℕ) : Prop :=
  x.1 < y.1 ∨ (x.1 = y.1 ∧ x.2 < y.2)

instance : DecidableRel addrPairLE := fun x y => by unfold addrPairLE; infer_instance

instance : DecidableRel addrPairLT := fun x y => by unfold addrPairLT; infer_instance

/-- `fetch_register_mappings` orders its rows by `(SlaveAddress,
RegisterAddress)`, modelled as a stable sort of the repository rows. -/
def fetch_register_mappings (rows : List RegisterMapping) : List RegisterMapping :=
  List.insertionSort mappingLE rows

/-- The per-slave dictionary `self.register_mappings` built by
`fetch_register_mappings`: grouping the sorted rows by slave address
preserves their relative order, so the list held under address `a` is the
order-preserving filter of the sorted rows; `.get(addr, [])` yields `[]`
for an unknown address, as the filter does. -/
def register_mappings_of (rows : List RegisterMapping) (a : ℕ) : List RegisterMapping :=
  (fetch_register_mappings rows).filter (fun m => m.SlaveAddress = a)

/-- One cycle of `ModbusReaderThread.run` against freshly fetched state:
`read_all_slaves` over the sorted device list and grouped mappings,
starting from Modbus-module state `s`. -/
def poll_cycle (client : Client) (slaveRows : List SlaveDevice)
    (mappingRows : List RegisterMapping) (s : ModbusState) : List (DKey × ℚ) × ModbusState :=
  read_all_slaves client (fetch_slaves slaveRows) (register_mappings_of mappingRows) s

/-! ## Loading-arm projector (loadingarm.py lines 37-47) -/

/-- One element of `LoadingArmModule.loading_arms` as built by
`fetch_realtime_loading_arms`.  `last_reading_datetime` is an opaque
timestamp (`None` until a Modbus update). -/
structure LoadingArm where
  id : ℕ
  name : String
  code : String
  flow_rate : ℚ
  is_active : Bool
  loading_weight : ℚ
  unit_name : String
  last_reading_datetime : Option ℕ
  mapping_id : ℕ
deriving DecidableEq, Repr

/-- `LoadingArmModule.update_loading_arms_from_modbus`: for each tracked
arm, probe the incoming dictionary at the Python tuple key
`(arm['id'], 'FlowRate')`; on a hit set the flow rate, stamp the reading
time (`datetime.now()`, passed in as `now`) and mark the arm active, on a
miss mark it inactive.  The updated list is emitted on
`realtime_data_updated`. -/
def update_loading_arms_from_modbus (now : ℕ) (loading_arms : List LoadingArm)
    (modbus_data : List (DKey × ℚ)) : List LoadingArm :=
  loading_arms.map fun arm =>
    match dget (DKey.col arm.id "FlowRate") modbus_data with
    | some v =>
      { arm with flow_rate := v, last_reading_datetime := some now, is_active := true }
    | none => { arm with is_active := false }

/-! ## Weighbridge module data model (weighbridge.py) -/

/-- The session dictionary created by `start_new_weighing`.  The Python dict
initially has no `tare_weight` / `gross_weight` / `net_weight` keys;
`Option` `none` models the missing key (reading it raises `KeyError`). -/
structure Weighing where
  order_id : ℕ
  weighbridge_id : ℕ
  driver_id : ℕ
  vehicle_license : String
  product_id : ℕ
  planned_quantity : ℚ
  status : String
  current_weight : ℚ
  tare_weight : Option ℚ := none
  gross_weight : Option ℚ := none
  net_weight : Option ℚ := none
deriving DecidableEq, Repr

/-- One element of `WeighbridgeModule.weighbridges` as built by
`fetch_weighbridges`. -/
structure WbRow where
  id : ℕ
  name : String
  code : String
  is_active : Bool
  current_weight : ℚ
  tare_weight : Option ℚ
  gross_weight : Option ℚ
deriving DecidableEq, Repr

/-- A row of the `inventory.[Order]` table, restricted to the columns the
weighing workflow reads and writes.  The `GETDATE()` timestamp columns
(`LoadingDate`, `LoadingTime`) are wall-clock and omitted. -/
structure OrderRow where
  OrderId : ℕ
  ProductId : ℕ
  Status : String
  PlannedQuantity : ℚ
  WeighbridgeId : Option ℕ := none
  DriverId : Option ℕ := none
  InitialWeight : Option ℚ := none
  FinalWeight : Option ℚ := none
  ActualQuantity : Option ℚ := none
deriving DecidableEq, Repr

/-- Observable state of `WeighbridgeModule`: the realtime rows, the
`current_weights` cache, the `active_weighings` dictionary (keyed by
weighbridge id), and the emitted `weighing_updated` / `error_occurred`
events. -/
structure WeighbridgeState where
  weighbridges : List WbRow
  current_weights : List (ℕ × ℚ)
  active_weighings : List (ℕ × Weighing)
  weighingUpdatedEvents : List Weighing
  errorEvents : List String
deriving DecidableEq, Repr

def WeighbridgeState.initial : WeighbridgeState :=
  ⟨[], [], [], [], []⟩

/-- `for weighbridge in self.weighbridges: if ... : ...; break` — update the
first matching element of a list, leave the rest untouched. -/
def updateFirst {α : Type} (p : α → Bool) (f : α → α) : List α → List α
  | [] => []
  | x :: xs => if p x then f x :: xs else x :: updateFirst p f xs

/-- `WeighbridgeModule.on_current_weight_updated` (lines 130-142): record
the weight on the matching realtime row, cache it in `current_weights`,
re-emit it, and propagate it into the active weighing for that weighbridge
if one exists (`update_active_weighing`). -/
def on_current_weight_updated (s : WeighbridgeState) (weighbridge_id : ℕ) (weight : ℚ) :
    WeighbridgeState :=
  let s := { s with weighbridges :=
    (updateFirst (fun w => w.id = weighbridge_id)
      (fun w => { w with current_weight := weight }) s.weighbridges) }
  let s := { s with current_weights := (dsetList weighbridge_id weight s.current_weights) }
  match dget weighbridge_id s.active_weighings with
  | some weighing =>
    let weighing := { weighing with current_weight := weight }
    { s with active_weighings := (dsetList weighbridge_id weighing s.active_weighings),
             weighingUpdatedEvents := s.weighingUpdatedEvents ++ [weighing] }
  | none => s

/-- The availability filter of `start_new_weighing`'s check query:
`Status IN ('Pending', 'Ready', 'InProgress')`. -/
def orderStatusAvailable (st : String) : Bool :=
  st = "Pending" ∨ st = "Ready" ∨ st = "InProgress"

/-- `WeighbridgeModule.start_new_weighing` (lines 201-257).

The database is external and shared: the availability `SELECT` and the
claiming `UPDATE` are two separate round trips, so each sees its own table
snapshot (`ordersAtCheck`, `ordersAtUpdate`); a single-client run passes
the same list twice.  Returns the Python result (`True`/`False`), the new
module state, and the committed order table.  The `UPDATE ... WHERE
OrderId = ?` matches every row with the given id; `cursor.rowcount` is the
number of matched rows, and the transaction is committed only when it is
exactly 1 (rolled back otherwise). -/
def start_new_weighing (s : WeighbridgeState) (ordersAtCheck ordersAtUpdate : List OrderRow)
    (weighbridge_id order_id driver_id : ℕ) (vehicle_license : String) :
    Bool × WeighbridgeState × List OrderRow :=
  match ordersAtCheck.find? (fun o => o.OrderId = order_id ∧ orderStatusAvailable o.Status) with
  | none =>
    (false,
     { s with errorEvents := s.errorEvents ++ ["Order not found or not available for weighing"] },
     ordersAtUpdate)
  | some order_info =>
    let updated := ordersAtUpdate.map fun o =>
      if o.OrderId = order_id then
        { o with WeighbridgeId := some weighbridge_id, DriverId := some driver_id,
                 Status := "InProgress" }
      else o
    let rowcount := (ordersAtUpdate.filter (fun o => o.OrderId = order_id)).length
    if rowcount = 1 then
      let weighing : Weighing :=
        { order_id := order_id
          weighbridge_id := weighbridge_id
          driver_id := driver_id
          vehicle_license := vehicle_license
          product_id := order_info.ProductId
          planned_quantity := order_info.PlannedQuantity
          status := "InProgress"
          current_weight := (dget weighbridge_id s.current_weights).getD 0 }
      (true,
       { s with active_weighings := (dsetList weighbridge_id weighing s.active_weighings),
                weighingUpdatedEvents := s.weighingUpdatedEvents ++ [weighing] },
       updated)
    else
      (false,
       { s with errorEvents := s.errorEvents ++ ["Failed to update Order for weighing"] },
       ordersAtUpdate)

/-- `WeighbridgeModule.set_tare_weight` (lines 259-281): requires an active
weighing and a cached current weight for the weighbridge; on success the
tare is captured into the session and mirrored onto the realtime row. -/
def set_tare_weight (s : WeighbridgeState) (weighbridge_id : ℕ) : Bool × WeighbridgeState :=
  match dget weighbridge_id s.active_weighings with
  | none =>
    (false, { s with errorEvents := s.errorEvents ++ ["No active weighing for weighbridge"] })
  | some weighing =>
    match dget weighbridge_id s.current_weights with
    | none =>
      (false,
       { s with errorEvents :=
          s.errorEvents ++ ["No current weight reading available for weighbridge"] })
    | some current_weight =>
      let weighing := { weighing with tare_weight := some current_weight }
      (true,
       { s with active_weighings := (dsetList weighbridge_id weighing s.active_weighings),
                weighingUpdatedEvents := s.weighingUpdatedEvents ++ [weighing],
                weighbridges :=
                  (updateFirst (fun w => w.id = weighbridge_id)
                    (fun w => { w with tare_weight := some current_weight }) s.weighbridges) })

/-- How `set_gross_weight` can leave its caller: a returned `True`/`False`,
a `KeyError` escaping from `weighing['tare_weight']` when no tare was ever
set, or the exception raised by `store_completed_weighing` when the order
update does not affect exactly one row. -/
inductive GrossOutcome where
  | ok (b : Bool)
  | keyError
  | persistRaise
deriving DecidableEq, Repr

/-- `WeighbridgeModule.set_gross_weight` (lines 283-316) together with
`store_completed_weighing` (lines 318-351).

The session dictionary is mutated in place *before* persistence: gross is
set first, then `weighing['tare_weight']` is read (raising `KeyError` when
the key is absent), then net and the `Completed` status are set, and only
then is the order `UPDATE` issued.  `execute_query(..., fetch=False)`
commits the update before reporting `rowcount`, so the committed table is
returned even on the raising path; `store_completed_weighing` raises
unless exactly one row was affected, and `set_gross_weight` does not catch
that exception.  Only on success is the session removed from
`active_weighings`. -/
def set_gross_weight (s : WeighbridgeState) (orders : List OrderRow) (weighbridge_id : ℕ) :
    GrossOutcome × WeighbridgeState × List OrderRow :=
  match dget weighbridge_id s.active_weighings with
  | none =>
    (.ok false,
     { s with errorEvents := s.errorEvents ++ ["No active weighing for weighbridge"] },
     orders)
  | some weighing =>
    match dget weighbridge_id s.current_weights with
    | none =>
      (.ok false,
       { s with errorEvents :=
          s.errorEvents ++ ["No current weight reading available for weighbridge"] },
       orders)
    | some current_weight =>
      let weighing := { weighing with gross_weight := some current_weight }
      let s := { s with active_weighings :=
        (dsetList weighbridge_id weighing s.active_weighings) }
      match weighing.tare_weight with
      | none => (.keyError, s, orders)
      | some tare =>
        let weighing := { weighing with
          net_weight := some (current_weight - tare), status := "Completed" }
        let s := { s with active_weighings :=
          (dsetList weighbridge_id weighing s.active_weighings) }
        let rowcount := (orders.filter (fun o => o.OrderId = weighing.order_id)).length
        let newOrders := orders.map fun o =>
          if o.OrderId = weighing.order_id then
            { o with WeighbridgeId := some weighing.weighbridge_id,
                     DriverId := some weighing.driver_id,
                     InitialWeight := weighing.tare_weight,
                     FinalWeight := weighing.gross_weight,
                     ActualQuantity := weighing.net_weight,
                     Status := "Completed" }
          else o
        if rowcount = 1 then
          (.ok true,
           { s with weighingUpdatedEvents := s.weighingUpdatedEvents ++ [weighing],
                    active_weighings :=
                      s.active_weighings.filter (fun e => ¬(e.1 = weighbridge_id)),
                    weighbridges :=
                      (updateFirst (fun w => w.id = weighbridge_id)
                        (fun w => { w with gross_weight := some current_weight })
                        s.weighbridges) },
           newOrders)
        else
          (.persistRaise, s, newOrders)

/-- `WeighbridgeModule.cancel_weighing` (lines 353-367): drop the session if
present, clearing the mirrored tare/gross on the realtime row. -/
def cancel_weighing (s : WeighbridgeState) (weighbridge_id : ℕ) : Bool × WeighbridgeState :=
  match dget weighbridge_id s.active_weighings with
  | none => (false, { s with errorEvents := s.errorEvents ++ ["No active weighing to cancel"] })
  | some _ =>
    (true,
     { s with active_weighings := s.active_weighings.filter (fun e => ¬(e.1 = weighbridge_id)),
              weighbridges :=
                (updateFirst (fun w => w.id = weighbridge_id)
                  (fun w => { w with tare_weight := none, gross_weight := none })
                  s.weighbridges) })

/-! ## Concrete fixtures

Small concrete devices, mappings, clients and states used by witnesses and
counterexamples.  `mappingFlow` is the worked example of the spec: device 3,
mapping id 10, register address 100, function code 3, scale factor 0.1,
offset 0, feeding loading arm 1's `FlowRate` column. -/

def device3 : SlaveDevice := ⟨3, "Device3"⟩

def mappingFlow : RegisterMapping :=
  ⟨10, 3, 100, 3, "LoadingArm", "FlowRate", 1, 1/10, 0⟩

/-- A second mapping on the *same* physical register `(3, 100)` as
`mappingFlow` (the source's data model allows a register to feed several
columns), used to exercise the visit order on duplicate addresses. -/
def mappingFlowB : RegisterMapping :=
  ⟨11, 3, 100, 3, "LoadingArm", "LoadingWeight", 2, 1, 0⟩

/-- A bus on which every read succeeds with raw value 550. -/
def clientOk550 : Client := fun _ _ _ => .ok 550

/-- A bus on which every read yields a device error response. -/
def clientError : Client := fun _ _ _ => .errorResponse

/-- The grouped register-mapping dictionary holding just `mappingFlow`. -/
def regMapFlow : ℕ → List RegisterMapping := fun a => if a = 3 then [mappingFlow] else []

/-- Loading arm 1 as held in `loading_arms` right after
`fetch_realtime_loading_arms`: flow rate 0 and inactive (the fetch comments
say both "will be updated by Modbus data"), fed by `mappingFlow`
(mapping id 10). -/
def armOne : LoadingArm :=
  ⟨1, "Arm 1", "LA1", 0, false, 0, "ton", none, 10⟩

/-- An in-progress weighing session for weighbridge 1 on order 7, no tare
set yet (as `start_new_weighing` creates it). -/
def wNoTare : Weighing :=
  { order_id := 7, weighbridge_id := 1, driver_id := 4, vehicle_license := "B 1234 XY",
    product_id := 2, planned_quantity := 10, status := "InProgress", current_weight := 0 }

/-- The same session after `set_tare_weight` captured a tare of 1000. -/
def wWithTare : Weighing := { wNoTare with tare_weight := some 1000 }

/-- Module state: weighbridge 1 has a cached current weight of 5000 and an
active session with no tare. -/
def sNoTare : WeighbridgeState :=
  { weighbridges := [], current_weights := [(1, 5000)], active_weighings := [(1, wNoTare)],
    weighingUpdatedEvents := [], errorEvents := [] }

/-- Module state: weighbridge 1 has a cached current weight of 5000 and an
active session with tare 1000. -/
def sWithTare : WeighbridgeState :=
  { weighbridges := [], current_weights := [(1, 5000)], active_weighings := [(1, wWithTare)],
    weighingUpdatedEvents := [], errorEvents := [] }

/-- A pending order, available for weighing. -/
def orderPending : OrderRow :=
  { OrderId := 7, ProductId := 2, Status := "Pending", PlannedQuantity := 10 }

/-- Order 7 after being claimed by a weighing (status `InProgress`). -/
def orderClaimed : OrderRow :=
  { OrderId := 7, ProductId := 2, Status := "InProgress", PlannedQuantity := 10,
    WeighbridgeId := some 1, DriverId := some 4 }

/-- A completed order, not available for weighing. -/
def orderDone : OrderRow :=
  { OrderId := 9, ProductId := 2, Status := "Completed", PlannedQuantity := 10 }

/-! ## Dictionary lemmas -/

theorem dget_dsetList {κ α : Type} [DecidableEq κ] (k k' : κ) (v : α) (d : List (κ × α)) :
    dget k (dsetList k' v d) = if k = k' then some v else dget k d := by
  induction d with
  | nil =>
    by_cases h : k = k'
    · simp [dget, dsetList, h]
    · simp [dget, dsetList, h, Ne.symm h]
  | cons e es ih =>
    by_cases h1 : e.1 = k'
    · by_cases h2 : k = k'
      · simp [dget, dsetList, h1, h2]
      · simp [dget, dsetList, h1, h2, Ne.symm h2]
    · by_cases h3 : e.1 = k
      · have h2 : ¬k = k' := fun h => h1 (h ▸ h3)
        simp [dget, dsetList, h1, h2, h3]
      · simp [dget, dsetList, h1, h3, ih]

theorem keys_dsetList {κ α : Type} [DecidableEq κ] (k : κ) (v : α) (d : List (κ × α)) :
    (dsetList k v d).map Prod.fst =
      if k ∈ d.map Prod.fst then d.map Prod.fst else d.map Prod.fst ++ [k] := by
  induction d with
  | nil => simp [dsetList]
  | cons e es ih =>
    by_cases h1 : e.1 = k <;> by_cases h2 : k ∈ es.map Prod.fst <;>
      simp [dsetList, h1, h2, ih] <;> simp_all [eq_comm]

theorem nodup_keys_dsetList {κ α : Type} [DecidableEq κ] (k : κ) (v : α) (d : List (κ × α))
    (h : (d.map Prod.fst).Nodup) : ((dsetList k v d).map Prod.fst).Nodup := by
  rw [keys_dsetList]
  split
  · exact h
  · next hk =>
    refine List.Nodup.append h (List.nodup_singleton k) ?_
    intro a ha hmem
    rw [List.mem_singleton] at hmem
    exact hk (hmem ▸ ha)

theorem dget_some_mem_keys {κ α : Type} [DecidableEq κ] (k : κ) (v : α) (d : List (κ × α))
    (h : dget k d = some v) : k ∈ d.map Prod.fst := by
  induction d with
  | nil => cases h
  | cons e es ih =>
    rw [dget] at h
    by_cases he : e.1 = k
    · simp [he]
    · rw [if_neg he] at h
      simpa using Or.inr (ih h)

theorem dget_filter_not_key {κ α : Type} [DecidableEq κ] (k : κ) (l : List (κ × α)) :
    dget k (l.filter (fun e => ¬(e.1 = k))) = none := by
  induction l with
  | nil => rfl
  | cons e es ih =>
    by_cases he : e.1 = k
    · simpa [List.filter_cons, he] using ih
    · simpa [List.filter_cons, he, dget] using ih

theorem find_eq_of_unique {α : Type} (l : List α) (q : α → Bool) (o : α)
    (ho : o ∈ l) (hq : q o = true) (huniq : ∀ x ∈ l, q x = true → x = o) :
    l.find? q = some o := by
  induction l with
  | nil => cases ho
  | cons a rest ih =>
    by_cases ha : q a = true
    · rw [List.find?_cons_of_pos _ ha]
      exact congrArg some (huniq a (List.mem_cons_self a rest) ha)
    · rw [List.find?_cons_of_neg _ (by simpa using ha)]
      have ho' : o ∈ rest := by
        rcases List.mem_cons.mp ho with rfl | h
        · exact absurd hq ha
        · exact h
      exact ih ho' (fun x hx hqx => huniq x (List.mem_cons_of_mem a hx) hqx)

theorem dget_dictUpdate_of_not_mem {κ α : Type} [DecidableEq κ] (k : κ) (xs ys : List (κ × α))
    (h : k ∉ ys.map Prod.fst) : dget k (dictUpdate xs ys) = dget k xs := by
  induction ys generalizing xs with
  | nil => rfl
  | cons e es ih =>
    simp only [List.map_cons, List.mem_cons, not_or] at h
    rw [show dictUpdate xs (e :: es) = dictUpdate (dsetList e.1 e.2 xs) es from rfl,
      ih _ h.2, dget_dsetList]
    exact if_neg h.1

theorem dget_dictUpdate {κ α : Type} [DecidableEq κ] (k : κ) (xs ys : List (κ × α))
    (hnd : (ys.map Prod.fst).Nodup) :
    dget k (dictUpdate xs ys)
      = match dget k ys with | some v => some v | none => dget k xs := by
  induction ys generalizing xs with
  | nil => rfl
  | cons e es ih =>
    simp only [List.map_cons, List.nodup_cons] at hnd
    rw [show dictUpdate xs (e :: es) = dictUpdate (dsetList e.1 e.2 xs) es from rfl]
    by_cases hk : k = e.1
    · subst hk
      rw [dget_dictUpdate_of_not_mem _ _ _ hnd.1, dget_dsetList, if_pos rfl]
      simp [dget]
    · rw [ih _ hnd.2, dget_dsetList, if_neg hk]
      simp [dget, Ne.symm, fun h => hk (h : k = e.1)]

theorem keys_dictUpdate_subset {κ α : Type} [DecidableEq κ] (xs ys : List (κ × α)) :
    ∀ k ∈ (dictUpdate xs ys).map Prod.fst, k ∈ xs.map Prod.fst ∨ k ∈ ys.map Prod.fst := by
  induction ys generalizing xs with
  | nil => exact fun k hk => Or.inl hk
  | cons e es ih =>
    intro k hk
    rcases ih (dsetList e.1 e.2 xs) k hk with h | h
    · rw [keys_dsetList] at h
      by_cases hmem : e.1 ∈ xs.map Prod.fst
      · rw [if_pos hmem] at h
        exact Or.inl h
      · rw [if_neg hmem] at h
        rcases List.mem_append.mp h with h | h
        · exact Or.inl h
        · rw [List.mem_singleton] at h
          subst h
          exact Or.inr (by simp)
    · exact Or.inr (by simpa using Or.inr h)

/-! ## Read-attempt trace lemmas -/

theorem read_register_attempts (client : Client) (s : ModbusState) (a : ℕ)
    (m : RegisterMapping) :
    (read_register client s a m).2.readAttempts
      = s.readAttempts ++ [(a, m.RegisterAddress, m.MappingId)] := by
  unfold read_register
  dsimp only
  split
  · cases client a m.FunctionCode m.RegisterAddress with
    | ok raw => dsimp only; split <;> rfl
    | errorResponse => rfl
    | modbusException => rfl
  · rfl

theorem readMappingsLoop_attempts (client : Client) (a : ℕ) (ms : List RegisterMapping)
    (data : List (DKey × ℚ)) (s : ModbusState) :
    (readMappingsLoop client a ms data s).2.readAttempts
      = s.readAttempts ++ ms.map (fun m => (a, m.RegisterAddress, m.MappingId)) := by
  induction ms generalizing data s with
  | nil => simp [readMappingsLoop]
  | cons m rest ih =>
    have hr := read_register_attempts client s a m
    rw [readMappingsLoop]
    rcases hre : read_register client s a m with ⟨v, s2⟩
    rw [hre] at hr
    cases v <;> dsimp only <;> rw [ih] <;> rw [hr] <;> simp

theorem read_device_data_attempts (client : Client) (regMap : ℕ → List RegisterMapping)
    (device : SlaveDevice) (s : ModbusState) :
    (read_device_data client regMap device s).2.readAttempts
      = s.readAttempts ++ (regMap device.SlaveAddress).map
          (fun m => (device.SlaveAddress, m.RegisterAddress, m.MappingId)) :=
  readMappingsLoop_attempts client device.SlaveAddress (regMap device.SlaveAddress) [] s

theorem readSlavesLoop_attempts (client : Client) (regMap : ℕ → List RegisterMapping)
    (devices : List SlaveDevice) (new_data : List (DKey × ℚ)) (s : ModbusState) :
    (readSlavesLoop client regMap devices new_data s).2.readAttempts
      = s.readAttempts ++ devices.flatMap
          (fun d => (regMap d.SlaveAddress).map
            (fun m => (d.SlaveAddress, m.RegisterAddress, m.MappingId))) := by
  induction devices generalizing new_data s with
  | nil => simp [readSlavesLoop]
  | cons d rest ih =>
    have h2 := read_device_data_attempts client regMap d s
    rw [readSlavesLoop]
    rcases hd : read_device_data client regMap d s with ⟨data, s2⟩
    rw [hd] at h2
    dsimp only at h2
    by_cases he : data.isEmpty <;> simp [he, ih, h2, List.append_assoc]

/-! ## Snapshot content lemmas -/

theorem read_register_ok_fst (client : Client) (s : ModbusState) (a : ℕ)
    (m : RegisterMapping) (raw : ℕ)
    (hfc : m.FunctionCode = 1 ∨ m.FunctionCode = 2 ∨ m.FunctionCode = 3 ∨ m.FunctionCode = 4)
    (hok : client a m.FunctionCode m.RegisterAddress = .ok raw) :
    (read_register client s a m).1 = some ((raw : ℚ) * m.ScaleFactor + m.Offset) := by
  unfold read_register
  rw [if_pos hfc, hok]

theorem readMappingsLoop_keys_nodup (client : Client) (a : ℕ) (ms : List RegisterMapping)
    (data : List (DKey × ℚ)) (s : ModbusState) (h : (data.map Prod.fst).Nodup) :
    ((readMappingsLoop client a ms data s).1.map Prod.fst).Nodup := by
  induction ms generalizing data s with
  | nil => exact h
  | cons m rest ih =>
    rw [readMappingsLoop]
    rcases hre : read_register client s a m with ⟨v, s2⟩
    cases v with
    | some v => exact ih _ _ (nodup_keys_dsetList _ _ _ h)
    | none => exact ih _ _ h

theorem readMappingsLoop_keys_shape (client : Client) (a : ℕ) (ms : List RegisterMapping)
    (data : List (DKey × ℚ)) (s : ModbusState) :
    ∀ k ∈ (readMappingsLoop client a ms data s).1.map Prod.fst,
      k ∈ data.map Prod.fst ∨ ∃ m ∈ ms, k = DKey.mid m.MappingId := by
  induction ms generalizing data s with
  | nil => exact fun k hk => Or.inl hk
  | cons m rest ih =>
    rw [readMappingsLoop]
    rcases hre : read_register client s a m with ⟨v, s2⟩
    cases v with
    | some v =>
      intro k hk
      rcases ih _ s2 k hk with h | h
      · rw [keys_dsetList] at h
        by_cases hmem : DKey.mid m.MappingId ∈ data.map Prod.fst
        · rw [if_pos hmem] at h
          exact Or.inl h
        · rw [if_neg hmem] at h
          rcases List.mem_append.mp h with h | h
          · exact Or.inl h
          · rw [List.mem_singleton] at h
            exact Or.inr ⟨m, List.mem_cons_self m rest, h⟩
      · rcases h with ⟨m', hm', hk'⟩
        exact Or.inr ⟨m', List.mem_cons_of_mem m hm', hk'⟩
    | none =>
      intro k hk
      rcases ih _ s2 k hk with h | h
      · exact Or.inl h
      · rcases h with ⟨m', hm', hk'⟩
        exact Or.inr ⟨m', List.mem_cons_of_mem m hm', hk'⟩

theorem readMappingsLoop_dget_frame (client : Client) (a : ℕ) (ms : List RegisterMapping)
    (data : List (DKey × ℚ)) (s : ModbusState) (mid : ℕ)
    (h : mid ∉ ms.map (fun m => m.MappingId)) :
    dget (DKey.mid mid) (readMappingsLoop client a ms data s).1
      = dget (DKey.mid mid) data := by
  induction ms generalizing data s with
  | nil => rfl
  | cons m rest ih =>
    simp only [List.map_cons, List.mem_cons, not_or] at h
    rw [readMappingsLoop]
    rcases hre : read_register client s a m with ⟨v, s2⟩
    cases v with
    | some v =>
      rw [ih _ _ h.2, dget_dsetList]
      rw [if_neg]
      simp only [DKey.mid.injEq]
      exact h.1
    | none => exact ih _ _ h.2

theorem readMappingsLoop_dget_of_ok (client : Client) (a : ℕ) (ms : List RegisterMapping)
    (data : List (DKey × ℚ)) (s : ModbusState) (m : RegisterMapping) (raw : ℕ)
    (hnd : (ms.map (fun x => x.MappingId)).Nodup) (hm : m ∈ ms)
    (hfc : m.FunctionCode = 1 ∨ m.FunctionCode = 2 ∨ m.FunctionCode = 3 ∨ m.FunctionCode = 4)
    (hok : client a m.FunctionCode m.RegisterAddress = .ok raw) :
    dget (DKey.mid m.MappingId) (readMappingsLoop client a ms data s).1
      = some ((raw : ℚ) * m.ScaleFactor + m.Offset) := by
  induction ms generalizing data s with
  | nil => cases hm
  | cons m0 rest ih =>
    simp only [List.map_cons, List.nodup_cons] at hnd
    rw [readMappingsLoop]
    rcases List.mem_cons.mp hm with rfl | hm'
    · have h1 := read_register_ok_fst client s a m raw hfc hok
      rcases hre : read_register client s a m with ⟨v, s2⟩
      rw [hre] at h1
      dsimp only at h1
      subst h1
      rw [readMappingsLoop_dget_frame client a rest _ s2 m.MappingId
        (by simpa using hnd.1), dget_dsetList, if_pos rfl]
    · rcases hre : read_register client s a m0 with ⟨v, s2⟩
      cases v with
      | some v => exact ih _ _ hnd.2 hm'
      | none => exact ih _ _ hnd.2 hm'

theorem readSlavesLoop_dget_frame (client : Client) (regMap : ℕ → List RegisterMapping)
    (devices : List SlaveDevice) (new_data : List (DKey × ℚ)) (s : ModbusState) (mid : ℕ)
    (h : ∀ d ∈ devices, mid ∉ (regMap d.SlaveAddress).map (fun m => m.MappingId)) :
    dget (DKey.mid mid) (readSlavesLoop client regMap devices new_data s).1
      = dget (DKey.mid mid) new_data := by
  induction devices generalizing new_data s with
  | nil => rfl
  | cons d rest ih =>
    rw [readSlavesLoop]
    rcases hd : read_device_data client regMap d s with ⟨data, s2⟩
    dsimp only
    have hdata : (readMappingsLoop client d.SlaveAddress (regMap d.SlaveAddress) [] s).1
        = data := congrArg Prod.fst hd
    by_cases he : data.isEmpty
    · rw [if_pos he]
      exact ih _ _ (fun d' hd' => h d' (List.mem_cons_of_mem d hd'))
    · rw [if_neg he, ih _ _ (fun d' hd' => h d' (List.mem_cons_of_mem d hd'))]
      refine dget_dictUpdate_of_not_mem _ _ _ ?_
      intro hmem
      rcases readMappingsLoop_keys_shape client d.SlaveAddress (regMap d.SlaveAddress) [] s
          (DKey.mid mid) (by rw [hdata]; exact hmem) with hc | ⟨m', hm', he'⟩
      · simp at hc
      · refine h d (List.mem_cons_self d rest) ?_
        rw [List.mem_map]
        exact ⟨m', hm', (DKey.mid.injEq _ _).mp he'.symm⟩

theorem readSlavesLoop_keys_shape (client : Client) (regMap : ℕ → List RegisterMapping)
    (devices : List SlaveDevice) (new_data : List (DKey × ℚ)) (s : ModbusState) :
    ∀ k ∈ (readSlavesLoop client regMap devices new_data s).1.map Prod.fst,
      k ∈ new_data.map Prod.fst ∨
        ∃ d ∈ devices, ∃ m ∈ regMap d.SlaveAddress, k = DKey.mid m.MappingId := by
  induction devices generalizing new_data s with
  | nil => exact fun k hk => Or.inl hk
  | cons d rest ih =>
    rw [readSlavesLoop]
    rcases hd : read_device_data client regMap d s with ⟨data, s2⟩
    dsimp only
    have hdata : (readMappingsLoop client d.SlaveAddress (regMap d.SlaveAddress) [] s).1
        = data := congrArg Prod.fst hd
    have hshape := fun k hk =>
      readMappingsLoop_keys_shape client d.SlaveAddress (regMap d.SlaveAddress) [] s k
        (by rw [hdata]; exact hk)
    by_cases he : data.isEmpty
    · rw [if_pos he]
      intro k hk
      rcases ih _ s2 k hk with h | ⟨d', hd', m', hm', he'⟩
      · exact Or.inl h
      · exact Or.inr ⟨d', List.mem_cons_of_mem d hd', m', hm', he'⟩
    · rw [if_neg he]
      intro k hk
      rcases ih _ s2 k hk with h | ⟨d', hd', m', hm', he'⟩
      · rcases keys_dictUpdate_subset new_data data k h with h2 | h2
        · exact Or.inl h2
        · rcases hshape k h2 with h3 | ⟨m', hm', he'⟩
          · simp at h3
          · exact Or.inr ⟨d, List.mem_cons_self d rest, m', hm', he'⟩
      · exact Or.inr ⟨d', List.mem_cons_of_mem d hd', m', hm', he'⟩

theorem readSlavesLoop_dget_of_ok (client : Client) (regMap : ℕ → List RegisterMapping)
    (devices : List SlaveDevice) (new_data : List (DKey × ℚ)) (s : ModbusState)
    (d : SlaveDevice) (m : RegisterMapping) (raw : ℕ)
    (hids : ((devices.flatMap (fun x => regMap x.SlaveAddress)).map
        (fun x => x.MappingId)).Nodup)
    (hd : d ∈ devices) (hm : m ∈ regMap d.SlaveAddress)
    (hfc : m.FunctionCode = 1 ∨ m.FunctionCode = 2 ∨ m.FunctionCode = 3 ∨ m.FunctionCode = 4)
    (hok : client d.SlaveAddress m.FunctionCode m.RegisterAddress = .ok raw) :
    dget (DKey.mid m.MappingId) (readSlavesLoop client regMap devices new_data s).1
      = some ((raw : ℚ) * m.ScaleFactor + m.Offset) := by
  induction devices generalizing new_data s with
  | nil => cases hd
  | cons d0 rest ih =>
    rw [List.flatMap_cons, List.map_append] at hids
    have hnd1 := hids.of_append_left
    have hnd2 := hids.of_append_right
    have hdisj := List.disjoint_of_nodup_append hids
    rw [readSlavesLoop]
    rcases hd0 : read_device_data client regMap d0 s with ⟨data, s2⟩
    dsimp only
    have hdata : (readMappingsLoop client d0.SlaveAddress (regMap d0.SlaveAddress) [] s).1
        = data := congrArg Prod.fst hd0
    rcases List.mem_cons.mp hd with rfl | hd'
    · have hval : dget (DKey.mid m.MappingId) data
          = some ((raw : ℚ) * m.ScaleFactor + m.Offset) := by
        rw [← hdata]
        exact readMappingsLoop_dget_of_ok client d.SlaveAddress (regMap d.SlaveAddress)
          [] s m raw hnd1 hm hfc hok
      have hne : ¬data.isEmpty = true := by
        intro hemp
        rw [List.isEmpty_iff.mp hemp] at hval
        cases hval
      rw [if_neg hne]
      have hnotrest : ∀ d' ∈ rest, m.MappingId ∉ (regMap d'.SlaveAddress).map
          (fun x => x.MappingId) := by
        intro d' hd' hmem
        refine hdisj (a := m.MappingId) ?_ ?_
        · rw [List.mem_map]
          exact ⟨m, hm, rfl⟩
        · rw [List.mem_map] at hmem ⊢
          rcases hmem with ⟨m', hm', he'⟩
          refine ⟨m', List.mem_flatMap.mpr ⟨d', hd', hm'⟩, he'⟩
      rw [readSlavesLoop_dget_frame client regMap rest _ s2 m.MappingId hnotrest]
      have hknd : (data.map Prod.fst).Nodup := by
        rw [← hdata]
        exact readMappingsLoop_keys_nodup client d.SlaveAddress (regMap d.SlaveAddress) [] s
          (by simp)
      rw [dget_dictUpdate _ _ _ hknd, hval]
    · by_cases he : data.isEmpty
      · rw [if_pos he]
        exact ih _ _ hnd2 hd'
      · rw [if_neg he]
        exact ih _ _ hnd2 hd'

/-! ## Claim C1 -/

/-- C1: for every successful register read under every supported function
code (1, 2, 3, 4), the value returned by `read_register` and the value it
caches in `last_values` under `(slaveAddress, mappingId)` are both exactly
`raw * scaleFactor + offset`. -/
theorem read_register_scales_exactly (client : Client) (s : ModbusState) (slave_address : ℕ)
    (mapping : RegisterMapping) (raw : ℕ)
    (hfc : mapping.FunctionCode = 1 ∨ mapping.FunctionCode = 2 ∨
      mapping.FunctionCode = 3 ∨ mapping.FunctionCode = 4)
    (hok : client slave_address mapping.FunctionCode mapping.RegisterAddress = .ok raw) :
    (read_register client s slave_address mapping).1
        = some ((raw : ℚ) * mapping.ScaleFactor + mapping.Offset) ∧
      dget (DKey.pair slave_address mapping.MappingId)
          (read_register client s slave_address mapping).2.lastValues
        = some ((raw : ℚ) * mapping.ScaleFactor + mapping.Offset) := by
  unfold read_register
  rw [if_pos hfc, hok]
  by_cases h : mapping.MappedTable = "Weighbridge" ∧ mapping.MappedColumn = "CurrentWeight" <;>
    simp [h, dget_dsetList]

/-- Witness for C1 at the spec's worked example: raw 550 scaled by 0.1 with
offset 0 is returned and cached as 55. -/
theorem read_register_scales_exactly_witness :
    (read_register clientOk550 ModbusState.initial 3 mappingFlow).1
        = some ((550 : ℚ) * (1/10) + 0) ∧
      dget (DKey.pair 3 10)
          (read_register clientOk550 ModbusState.initial 3 mappingFlow).2.lastValues
        = some ((550 : ℚ) * (1/10) + 0) :=
  read_register_scales_exactly clientOk550 ModbusState.initial 3 mappingFlow 550
    (Or.inr (Or.inr (Or.inl rfl))) rfl

/-! ## Claim C3 -/

/-- C3: a failed read — unsupported function code, device error response,
or Modbus exception — returns `None`, leaves the whole `last_values` cache
unchanged, and in particular preserves whatever value any key held. -/
theorem failed_read_preserves_cache (client : Client) (s : ModbusState) (slave_address : ℕ)
    (mapping : RegisterMapping)
    (hfail :
      (¬(mapping.FunctionCode = 1 ∨ mapping.FunctionCode = 2 ∨
          mapping.FunctionCode = 3 ∨ mapping.FunctionCode = 4)) ∨
      client slave_address mapping.FunctionCode mapping.RegisterAddress = .errorResponse ∨
      client slave_address mapping.FunctionCode mapping.RegisterAddress = .modbusException) :
    (read_register client s slave_address mapping).1 = none ∧
      (read_register client s slave_address mapping).2.lastValues = s.lastValues ∧
      ∀ (slave mid : ℕ) (v : ℚ), dget (DKey.pair slave mid) s.lastValues = some v →
        dget (DKey.pair slave mid)
          (read_register client s slave_address mapping).2.lastValues = some v := by
  have hmain : (read_register client s slave_address mapping).1 = none ∧
      (read_register client s slave_address mapping).2.lastValues = s.lastValues := by
    unfold read_register
    by_cases hfc : mapping.FunctionCode = 1 ∨ mapping.FunctionCode = 2 ∨
        mapping.FunctionCode = 3 ∨ mapping.FunctionCode = 4
    · rw [if_pos hfc]
      rcases hfail with h | h | h
      · exact absurd hfc h
      · rw [h]; exact ⟨rfl, rfl⟩
      · rw [h]; exact ⟨rfl, rfl⟩
    · rw [if_neg hfc]; exact ⟨rfl, rfl⟩
  refine ⟨hmain.1, hmain.2, fun slave mid v hv => ?_⟩
  rw [hmain.2]; exact hv

/-- Witness for C3: a device error response on the worked-example mapping
leaves a previously cached value (55 at key `(3, 10)`) untouched. -/
theorem failed_read_preserves_cache_witness :
    (read_register clientError
        { ModbusState.initial with lastValues := [(DKey.pair 3 10, 55)] } 3 mappingFlow).1
      = none ∧
    (read_register clientError
        { ModbusState.initial with lastValues := [(DKey.pair 3 10, 55)] } 3
        mappingFlow).2.lastValues = [(DKey.pair 3 10, 55)] ∧
    ∀ (slave mid : ℕ) (v : ℚ),
      dget (DKey.pair slave mid) ([(DKey.pair 3 10, 55)] : List (DKey × ℚ)) = some v →
      dget (DKey.pair slave mid)
        (read_register clientError
          { ModbusState.initial with lastValues := [(DKey.pair 3 10, 55)] } 3
          mappingFlow).2.lastValues = some v :=
  failed_read_preserves_cache clientError
    { ModbusState.initial with lastValues := [(DKey.pair 3 10, 55)] } 3 mappingFlow
    (Or.inr (Or.inl rfl))

/-! ## Claim C4 -/

/-- C4: a device-level read error on any mapping is reported as a
per-register `None` result rather than an exception, and — whatever the bus
returns — one poll cycle still attempts every mapping of every device, in
order: the cycle's read-attempt trace is exactly the full list of
`(slaveAddress, registerAddress, mappingId)` triples of all devices. -/
theorem read_failure_does_not_abort_cycle (client : Client) (slaves : List SlaveDevice)
    (regMap : ℕ → List RegisterMapping) (s : ModbusState) :
    (∀ (s' : ModbusState) (a : ℕ) (m : RegisterMapping),
        client a m.FunctionCode m.RegisterAddress = .errorResponse →
        (read_register client s' a m).1 = none) ∧
      (read_all_slaves client slaves regMap s).2.readAttempts
        = s.readAttempts ++ slaves.flatMap
            (fun d => (regMap d.SlaveAddress).map
              (fun m => (d.SlaveAddress, m.RegisterAddress, m.MappingId))) := by
  constructor
  · intro s' a m herr
    unfold read_register
    by_cases hfc : m.FunctionCode = 1 ∨ m.FunctionCode = 2 ∨
        m.FunctionCode = 3 ∨ m.FunctionCode = 4
    · rw [if_pos hfc, herr]
    · rw [if_neg hfc]
  · exact readSlavesLoop_attempts client regMap slaves [] s

/-- Witness for C4: on a bus where every read errors, the failing read of
the worked-example mapping returns `None` and the cycle over device 3 still
attempts its mapping. -/
theorem read_failure_does_not_abort_cycle_witness :
    (read_register clientError ModbusState.initial 3 mappingFlow).1 = none ∧
      (read_all_slaves clientError [device3] regMapFlow ModbusState.initial).2.readAttempts
        = [(3, 100, 10)] := by
  have h := read_failure_does_not_abort_cycle clientError [device3] regMapFlow
    ModbusState.initial
  refine ⟨h.1 ModbusState.initial 3 mappingFlow rfl, ?_⟩
  rw [h.2]
  rfl

/-- Evaluation of the worked-example poll cycle: device 3, mapping 10 at
register 100 (function code 3, scale 0.1, offset 0), raw read 550.  The
emitted snapshot is the singleton dictionary `{10 ↦ 55}`. -/
theorem pollFlow_snapshot_eval :
    (poll_cycle clientOk550 [device3] [mappingFlow] ModbusState.initial).1
      = [(DKey.mid 10, 55)] := by
  simp [poll_cycle, read_all_slaves, readSlavesLoop, read_device_data, readMappingsLoop,
    read_register, fetch_slaves, register_mappings_of, fetch_register_mappings,
    List.insertionSort, List.orderedInsert, mappingFlow, device3, clientOk550,
    ModbusState.initial, dsetList, dictUpdate]
  norm_num

/-! ## Claim C7 -/

/-- C7 counterexample: in a poll cycle over device 3 whose single mapping
(id 10, register 100, function code 3, scale 0.1) is read successfully as
raw 550, the emitted snapshot is `{10 ↦ 55}` — keyed by the bare mapping
id — and holds *no* entry under the `(slaveAddress, mappingId)` pair
`(3, 10)`, contradicting the claim that the snapshot's keys are those
pairs. -/
theorem snapshot_pair_key_counterexample :
    (poll_cycle clientOk550 [device3] [mappingFlow] ModbusState.initial).1
        = [(DKey.mid 10, 55)] ∧
      dget (DKey.pair 3 10)
        (poll_cycle clientOk550 [device3] [mappingFlow] ModbusState.initial).1 = none :=
  ⟨pollFlow_snapshot_eval, by rw [pollFlow_snapshot_eval]; rfl⟩

/-- C7 (amended): the snapshot emitted at the end of every poll cycle is a
map whose keys are the bare mapping ids (not `(slaveAddress, mappingId)`
pairs) and whose values are the scaled values; provided mapping ids are
unique across the configuration, it contains an entry for every
successfully read mapping of every device in the cycle. -/
theorem snapshot_keyed_by_mapping_id (client : Client) (slaves : List SlaveDevice)
    (regMap : ℕ → List RegisterMapping) (s : ModbusState)
    (hids : ((slaves.flatMap (fun x => regMap x.SlaveAddress)).map
        (fun x => x.MappingId)).Nodup) :
    (∀ k ∈ (read_all_slaves client slaves regMap s).1.map Prod.fst,
        ∃ d ∈ slaves, ∃ m ∈ regMap d.SlaveAddress, k = DKey.mid m.MappingId) ∧
      ∀ d ∈ slaves, ∀ m ∈ regMap d.SlaveAddress, ∀ raw : ℕ,
        (m.FunctionCode = 1 ∨ m.FunctionCode = 2 ∨ m.FunctionCode = 3 ∨
          m.FunctionCode = 4) →
        client d.SlaveAddress m.FunctionCode m.RegisterAddress = .ok raw →
        dget (DKey.mid m.MappingId) (read_all_slaves client slaves regMap s).1
          = some ((raw : ℚ) * m.ScaleFactor + m.Offset) := by
  constructor
  · intro k hk
    rcases readSlavesLoop_keys_shape client regMap slaves [] s k hk with h | h
    · simp at h
    · exact h
  · intro d hd m hm raw hfc hok
    exact readSlavesLoop_dget_of_ok client regMap slaves [] s d m raw hids hd hm hfc hok

/-- Witness for the amended C7 at the worked example: the snapshot of the
cycle holds the scaled value of mapping 10 under the bare key 10. -/
theorem snapshot_keyed_by_mapping_id_witness :
    dget (DKey.mid 10)
        (read_all_slaves clientOk550 [device3] regMapFlow ModbusState.initial).1
      = some ((550 : ℚ) * (1/10) + 0) :=
  (snapshot_keyed_by_mapping_id clientOk550 [device3] regMapFlow ModbusState.initial
      (by simp [regMapFlow, device3, mappingFlow])).2
    device3 (by simp) mappingFlow (by simp [regMapFlow, device3])
    550 (Or.inr (Or.inr (Or.inl rfl))) rfl

/-! ## Claim C8 -/

/-- C8 (code bug): the per-cycle snapshot holds the successfully read value
of loading arm 1's `FlowRate` mapping under the bare mapping id (`10 ↦ 55`),
yet `update_loading_arms_from_modbus` probes the tuple key
`(1, 'FlowRate')`, which no snapshot producer ever emits, so the arm is
marked *inactive* and its flow rate stays 0 even though its FlowRate
mapping was read successfully in the cycle. -/
theorem loading_arm_projector_key_mismatch :
    dget (DKey.mid 10)
        (poll_cycle clientOk550 [device3] [mappingFlow] ModbusState.initial).1 = some 55 ∧
      update_loading_arms_from_modbus 0 [armOne]
          (poll_cycle clientOk550 [device3] [mappingFlow] ModbusState.initial).1
        = [{ armOne with is_active := false }] := by
  constructor
  · rw [pollFlow_snapshot_eval]
    rfl
  · rw [pollFlow_snapshot_eval]
    rfl

/-! ## Claim C9 -/

/-- C9 counterexample: with two mappings configured on the *same* physical
register `(3, 100)` — which the data model allows — the cycle visits
`(slaveAddress, registerAddress)` pairs `[(3,100), (3,100)]`, which is not
*strictly* ascending. -/
theorem visit_order_not_strict_counterexample :
    ((poll_cycle clientOk550 [device3] [mappingFlow, mappingFlowB]
          ModbusState.initial).2.readAttempts.map (fun t => (t.1, t.2.1)))
        = [(3, 100), (3, 100)] ∧
      ¬ List.Pairwise addrPairLT [((3 : ℕ), (100 : ℕ)), (3, 100)] := by
  constructor
  · simp [poll_cycle, read_all_slaves, readSlavesLoop, read_device_data, readMappingsLoop,
      read_register, fetch_slaves, register_mappings_of, fetch_register_mappings,
      List.insertionSort, List.orderedInsert, mappingLE, mappingFlow, mappingFlowB, device3,
      clientOk550, ModbusState.initial, dsetList, dictUpdate]
  · decide

/-- C9 (amended): within every poll cycle the registers are visited in
*non-decreasing* `(slaveAddress, registerAddress)` lexicographic order —
all mappings of the lowest-addressed device first, each device's mappings
in ascending register-address order, devices in ascending slave-address
order — and strictly ascending whenever the visited
`(slaveAddress, registerAddress)` pairs are pairwise distinct. -/
theorem visit_order_sorted (client : Client) (slaveRows : List SlaveDevice)
    (mappingRows : List RegisterMapping)
    (hnd : (slaveRows.map (fun d => d.SlaveAddress)).Nodup) :
    List.Pairwise addrPairLE
        ((poll_cycle client slaveRows mappingRows ModbusState.initial).2.readAttempts.map
          (fun t => (t.1, t.2.1))) ∧
      (((poll_cycle client slaveRows mappingRows ModbusState.initial).2.readAttempts.map
          (fun t => (t.1, t.2.1))).Nodup →
        List.Pairwise addrPairLT
          ((poll_cycle client slaveRows mappingRows ModbusState.initial).2.readAttempts.map
            (fun t => (t.1, t.2.1)))) := by
  have htrace : (poll_cycle client slaveRows mappingRows ModbusState.initial).2.readAttempts
      = (fetch_slaves slaveRows).flatMap
          (fun d => ((register_mappings_of mappingRows) d.SlaveAddress).map
            (fun m => (d.SlaveAddress, m.RegisterAddress, m.MappingId))) := by
    exact readSlavesLoop_attempts client (register_mappings_of mappingRows)
      (fetch_slaves slaveRows) [] ModbusState.initial
  have hpairs : ((poll_cycle client slaveRows mappingRows
        ModbusState.initial).2.readAttempts.map (fun t => (t.1, t.2.1)))
      = ((fetch_slaves slaveRows).map
          (fun d => ((register_mappings_of mappingRows) d.SlaveAddress).map
            (fun m => (d.SlaveAddress, m.RegisterAddress)))).flatten := by
    rw [htrace, List.flatMap_def, List.map_flatten, List.map_map]
    refine congrArg List.flatten (List.map_congr_left ?_)
    intro d _
    simp [List.map_map, Function.comp]
  have hsortedSlaves : List.Pairwise (fun a b : SlaveDevice =>
      a.SlaveAddress ≤ b.SlaveAddress) (fetch_slaves slaveRows) :=
    List.sorted_insertionSort _ slaveRows
  have hndSlaves : ((fetch_slaves slaveRows).map (fun d => d.SlaveAddress)).Nodup :=
    ((List.perm_insertionSort _ slaveRows).map (fun d => d.SlaveAddress)).nodup_iff.mpr hnd
  have hltSlaves : List.Pairwise (fun a b : SlaveDevice =>
      a.SlaveAddress < b.SlaveAddress) (fetch_slaves slaveRows) := by
    have hne := (List.pairwise_map.mp hndSlaves)
    exact (hsortedSlaves.and hne).imp (fun h => Nat.lt_of_le_of_ne h.1 h.2)
  have hsortedMaps : List.Pairwise mappingLE (fetch_register_mappings mappingRows) :=
    List.sorted_insertionSort mappingLE mappingRows
  have hinner : ∀ d : SlaveDevice, List.Pairwise addrPairLE
      (((register_mappings_of mappingRows) d.SlaveAddress).map
        (fun m => (d.SlaveAddress, m.RegisterAddress))) := by
    intro d
    rw [List.pairwise_map]
    have hfilter : List.Pairwise mappingLE
        ((register_mappings_of mappingRows) d.SlaveAddress) := hsortedMaps.filter _
    refine hfilter.imp_of_mem ?_
    intro a b ha hb hab
    have ha2 : a.SlaveAddress = d.SlaveAddress := by
      simpa using (List.of_mem_filter ha)
    have hb2 : b.SlaveAddress = d.SlaveAddress := by
      simpa using (List.of_mem_filter hb)
    unfold mappingLE at hab
    unfold addrPairLE
    dsimp only
    omega
  have hmain : List.Pairwise addrPairLE
      ((poll_cycle client slaveRows mappingRows ModbusState.initial).2.readAttempts.map
        (fun t => (t.1, t.2.1))) := by
    rw [hpairs, List.pairwise_flatten]
    refine ⟨?_, ?_⟩
    · intro l hl
      rcases List.mem_map.mp hl with ⟨d, _, rfl⟩
      exact hinner d
    · rw [List.pairwise_map]
      refine hltSlaves.imp_of_mem ?_
      intro d1 d2 _ _ hlt x hx y hy
      rcases List.mem_map.mp hx with ⟨m1, _, rfl⟩
      rcases List.mem_map.mp hy with ⟨m2, _, rfl⟩
      exact Or.inl hlt
  refine ⟨hmain, fun hnodup => ?_⟩
  refine (hmain.and hnodup).imp ?_
  rintro ⟨x1, x2⟩ ⟨y1, y2⟩ ⟨hle, hne⟩
  unfold addrPairLE at hle
  unfold addrPairLT
  dsimp only at hle ⊢
  have : ¬(x1 = y1 ∧ x2 = y2) := by
    intro h
    exact hne (by simp [Prod.ext_iff, h.1, h.2])
  omega

/-- Witness for the amended C9: the cycle over device 3 with the two
duplicate-register mappings visits `[(3,100), (3,100)]`, which is
non-decreasing. -/
theorem visit_order_sorted_witness :
    List.Pairwise addrPairLE
      ((poll_cycle clientOk550 [device3] [mappingFlow, mappingFlowB]
          ModbusState.initial).2.readAttempts.map (fun t => (t.1, t.2.1))) :=
  (visit_order_sorted clientOk550 [device3] [mappingFlow, mappingFlowB] (by decide)).1

/-! ## Weighing-session lemmas -/

/-- Characterization of `start_new_weighing` on the success path: the order
table holds exactly one row with the requested id, its status passes the
availability filter, and check and update see the same table.  The order is
claimed (`InProgress`, weighbridge and driver recorded), the session is
entered into `active_weighings` under the weighbridge id, and `True` is
returned. -/
theorem start_new_weighing_success (s : WeighbridgeState) (orders : List OrderRow)
    (wid oid did : ℕ) (lic : String) (o : OrderRow)
    (hfilter : orders.filter (fun x => x.OrderId = oid) = [o])
    (hstatus : orderStatusAvailable o.Status = true) :
    start_new_weighing s orders orders wid oid did lic
      = (true,
         { s with
            active_weighings :=
              (dsetList wid
                { order_id := oid, weighbridge_id := wid, driver_id := did,
                  vehicle_license := lic, product_id := o.ProductId,
                  planned_quantity := o.PlannedQuantity, status := "InProgress",
                  current_weight := (dget wid s.current_weights).getD 0 }
                s.active_weighings),
            weighingUpdatedEvents := s.weighingUpdatedEvents ++
              [{ order_id := oid, weighbridge_id := wid, driver_id := did,
                 vehicle_license := lic, product_id := o.ProductId,
                 planned_quantity := o.PlannedQuantity, status := "InProgress",
                 current_weight := (dget wid s.current_weights).getD 0 }] },
         orders.map fun x =>
           if x.OrderId = oid then
             { x with WeighbridgeId := some wid, DriverId := some did,
                      Status := "InProgress" }
           else x) := by
  have homem : o ∈ orders.filter (fun x => x.OrderId = oid) := by
    rw [hfilter]
    exact List.mem_singleton_self o
  have hmem : o ∈ orders := (List.mem_filter.mp homem).1
  have hoid : o.OrderId = oid := by
    have h := (List.mem_filter.mp homem).2
    simpa using h
  have hfind : orders.find? (fun x => x.OrderId = oid ∧ orderStatusAvailable x.Status)
      = some o := by
    apply find_eq_of_unique _ _ _ hmem
    · simp [hoid, hstatus]
    · intro x hx hqx
      simp only [decide_eq_true_eq] at hqx
      have hmemx : x ∈ orders.filter (fun y => y.OrderId = oid) :=
        List.mem_filter.mpr ⟨hx, by simpa using hqx.1⟩
      rw [hfilter] at hmemx
      simpa using hmemx
  unfold start_new_weighing
  rw [hfind]
  dsimp only
  rw [hfilter]
  rfl

/-! ## Claim C5 -/

/-- C5: `start_new_weighing` returns a typed failure — the
order-not-available error — whenever no row with the requested id has a
status in {Pending, Ready, InProgress} (a Completed order in particular);
it returns the persistence failure when the claiming update affects zero
rows (the order row vanished between check and update); and on a table
whose unique row for the id is Pending it returns `True`, claims the order
(`InProgress`) and creates the active session for the weighbridge. -/
theorem start_weighing_cases (s : WeighbridgeState) (ordersC ordersU orders : List OrderRow)
    (wid oid did : ℕ) (lic : String) :
    ((∀ o ∈ ordersC, o.OrderId = oid → ¬orderStatusAvailable o.Status = true) →
      start_new_weighing s ordersC ordersU wid oid did lic
        = (false,
           { s with errorEvents :=
              s.errorEvents ++ ["Order not found or not available for weighing"] },
           ordersU)) ∧
      ((∃ o ∈ ordersC, o.OrderId = oid ∧ orderStatusAvailable o.Status = true) →
        (ordersU.filter (fun x => x.OrderId = oid)).length = 0 →
        start_new_weighing s ordersC ordersU wid oid did lic
          = (false,
             { s with errorEvents :=
                s.errorEvents ++ ["Failed to update Order for weighing"] },
             ordersU)) ∧
      ∀ o : OrderRow, orders.filter (fun x => x.OrderId = oid) = [o] →
        o.Status = "Pending" →
        (start_new_weighing s orders orders wid oid did lic).1 = true ∧
          dget wid (start_new_weighing s orders orders wid oid did lic).2.1.active_weighings
            = some { order_id := oid, weighbridge_id := wid, driver_id := did,
                     vehicle_license := lic, product_id := o.ProductId,
                     planned_quantity := o.PlannedQuantity, status := "InProgress",
                     current_weight := (dget wid s.current_weights).getD 0 } ∧
          ∀ o' ∈ (start_new_weighing s orders orders wid oid did lic).2.2,
            o'.OrderId = oid → o'.Status = "InProgress" := by
  refine ⟨?_, ?_, ?_⟩
  · intro hnone
    have hfind : ordersC.find? (fun x => x.OrderId = oid ∧ orderStatusAvailable x.Status)
        = none := by
      rw [List.find?_eq_none]
      intro x hx
      simp only [decide_eq_true_eq, not_and]
      exact fun h1 => hnone x hx h1
    unfold start_new_weighing
    rw [hfind]
  · rintro ⟨o, ho, hid, hst⟩ hzero
    have hq : (fun x => decide (x.OrderId = oid ∧ orderStatusAvailable x.Status = true)) o
        = true := by simp [hid, hst]
    have hsome : (ordersC.find?
        (fun x => x.OrderId = oid ∧ orderStatusAvailable x.Status)).isSome := by
      rw [List.find?_isSome]
      exact ⟨o, ho, hq⟩
    rcases hfind : ordersC.find?
        (fun x => x.OrderId = oid ∧ orderStatusAvailable x.Status) with _ | oi
    · rw [hfind] at hsome
      cases hsome
    · unfold start_new_weighing
      rw [hfind]
      dsimp only
      rw [hzero]
      rfl
  · intro o hfilter hpending
    have hstatus : orderStatusAvailable o.Status = true := by
      simp [orderStatusAvailable, hpending]
    rw [start_new_weighing_success s orders wid oid did lic o hfilter hstatus]
    refine ⟨rfl, ?_, ?_⟩
    · dsimp only
      rw [dget_dsetList]
      exact if_pos rfl
    · intro o' ho' hid'
      dsimp only at ho'
      rcases List.mem_map.mp ho' with ⟨x, hx, rfl⟩
      by_cases hxid : x.OrderId = oid
      · simp [hxid]
      · rw [if_neg (by simpa using hxid)] at hid' ⊢
        exact absurd hid' hxid

/-- Witness for C5: on a Completed order `start_new_weighing` returns
`False`; on a Pending order it returns `True` and the claimed order's
status becomes `InProgress`. -/
theorem start_weighing_cases_witness :
    (start_new_weighing WeighbridgeState.initial [orderDone] [orderDone] 1 9 4 "B 1").1
        = false ∧
      (start_new_weighing WeighbridgeState.initial [orderPending] [orderPending]
          1 7 4 "B 1").1 = true ∧
      ∀ o' ∈ (start_new_weighing WeighbridgeState.initial [orderPending] [orderPending]
          1 7 4 "B 1").2.2, o'.OrderId = 7 → o'.Status = "InProgress" := by
  have h1 := (start_weighing_cases WeighbridgeState.initial [orderDone] [orderDone] []
      1 9 4 "B 1").1
    (by
      intro o ho hid
      rw [List.mem_singleton] at ho
      subst ho
      simp [orderDone, orderStatusAvailable])
  have h3 := (start_weighing_cases WeighbridgeState.initial [] [] [orderPending]
      1 7 4 "B 1").2.2 orderPending
    (by simp [orderPending]) (by simp [orderPending])
  exact ⟨by rw [h1], h3.1, h3.2.2⟩

/-! ## Claim C6 -/

/-- C6 counterexample: with an active session that has no tare set and a
cached current weight, `set_gross_weight` escapes with a `KeyError`
(reading the absent `tare_weight` key) — not with a typed failure return
as the claim states. -/
theorem set_gross_without_tare_raises :
    (set_gross_weight sNoTare [] 1).1 = GrossOutcome.keyError ∧
      GrossOutcome.keyError ≠ GrossOutcome.ok false ∧
      GrossOutcome.keyError ≠ GrossOutcome.ok true := by
  refine ⟨?_, by decide, by decide⟩
  simp [set_gross_weight, sNoTare, wNoTare, dget]

/-- C6 (amended): `set_tare_weight` fails with the no-active-session error
when the weighbridge has no session, and with the no-current-reading error
when it has one but no cached weight; otherwise it captures
`tareWeight = currentWeight`.  `set_gross_weight` on a session without a
tare does not complete the weighing, but it fails by raising an untyped
`KeyError` (after having already set the session's gross field) rather
than returning a typed failure. -/
theorem weighing_guard_failures (s : WeighbridgeState) (orders : List OrderRow) (wid : ℕ) :
    (dget wid s.active_weighings = none →
      set_tare_weight s wid
        = (false,
           { s with errorEvents :=
              s.errorEvents ++ ["No active weighing for weighbridge"] })) ∧
      (∀ w : Weighing, dget wid s.active_weighings = some w →
        dget wid s.current_weights = none →
        set_tare_weight s wid
          = (false,
             { s with errorEvents :=
                s.errorEvents ++ ["No current weight reading available for weighbridge"] })) ∧
      (∀ (w : Weighing) (cw : ℚ), dget wid s.active_weighings = some w →
        dget wid s.current_weights = some cw →
        (set_tare_weight s wid).1 = true ∧
          dget wid (set_tare_weight s wid).2.active_weighings
            = some { w with tare_weight := some cw }) ∧
      ∀ (w : Weighing) (cw : ℚ), dget wid s.active_weighings = some w →
        dget wid s.current_weights = some cw → w.tare_weight = none →
        (set_gross_weight s orders wid).1 = GrossOutcome.keyError ∧
          (set_gross_weight s orders wid).2.2 = orders ∧
          dget wid (set_gross_weight s orders wid).2.1.active_weighings
            = some { w with gross_weight := some cw } := by
  refine ⟨?_, ?_, ?_, ?_⟩
  · intro h
    unfold set_tare_weight
    rw [h]
  · intro w hw hcw
    unfold set_tare_weight
    rw [hw, hcw]
  · intro w cw hw hcw
    unfold set_tare_weight
    rw [hw, hcw]
    refine ⟨rfl, ?_⟩
    dsimp only
    rw [dget_dsetList]
    exact if_pos rfl
  · intro w cw hw hcw ht
    unfold set_gross_weight
    rw [hw, hcw]
    dsimp only
    rw [ht]
    refine ⟨rfl, rfl, ?_⟩
    dsimp only
    rw [dget_dsetList]
    exact if_pos rfl

/-- Witness for C6: with no session `set_tare_weight` fails with the
no-active-session error; with a session lacking a tare (and a cached
weight) `set_gross_weight` ends in the `KeyError` outcome. -/
theorem weighing_guard_failures_witness :
    set_tare_weight WeighbridgeState.initial 1
        = (false,
           { WeighbridgeState.initial with
              errorEvents := ["No active weighing for weighbridge"] }) ∧
      (set_gross_weight sNoTare [] 1).1 = GrossOutcome.keyError := by
  constructor
  · have h := (weighing_guard_failures WeighbridgeState.initial [] 1).1 rfl
    simpa [WeighbridgeState.initial] using h
  · exact ((weighing_guard_failures sNoTare [] 1).2.2.2 wNoTare 5000 rfl rfl rfl).1

/-! ## Claim C2 -/

/-- C2 counterexample: with an InProgress session (tare 1000), a cached
weight (5000), and an order table on which the update affects zero rows,
`set_gross_weight` ends in the raised persistence failure and the session —
still in the active set — has status `"Completed"`, not `"InProgress"` as
the claim states. -/
theorem set_gross_failure_completed_counterexample :
    (set_gross_weight sWithTare [] 1).1 = GrossOutcome.persistRaise ∧
      (dget 1 (set_gross_weight sWithTare [] 1).2.1.active_weighings).map
          (fun w => w.status) = some "Completed" ∧
      ¬(dget 1 (set_gross_weight sWithTare [] 1).2.1.active_weighings).map
          (fun w => w.status) = some "InProgress" := by
  have h2 : (dget 1 (set_gross_weight sWithTare [] 1).2.1.active_weighings).map
      (fun w => w.status) = some "Completed" := by
    simp [set_gross_weight, sWithTare, wWithTare, wNoTare, dget]
  refine ⟨?_, h2, ?_⟩
  · simp [set_gross_weight, sWithTare, wWithTare, wNoTare, dget]
  · rw [h2]
    simp

/-- C2 (amended): for an InProgress session with a tare set and a cached
current weight, `set_gross_weight` captures `gross = currentWeight`,
computes `net = gross - tare`, and issues the order update carrying tare,
gross, net and the Completed status; when that update affects exactly one
row it returns `True` and only then removes the session from the active
set.  When the update affects zero rows (or not exactly one), the
store raises and the exception escapes `set_gross_weight`: the session
remains in the active set — no session is lost — but its in-memory status
has already been mutated to `Completed`, with gross and net set. -/
theorem set_gross_weight_persistence (s : WeighbridgeState) (orders : List OrderRow)
    (wid : ℕ) (w : Weighing) (t cw : ℚ)
    (hw : dget wid s.active_weighings = some w)
    (hcw : dget wid s.current_weights = some cw)
    (ht : w.tare_weight = some t) :
    ((orders.filter (fun o => o.OrderId = w.order_id)).length = 1 →
      (set_gross_weight s orders wid).1 = GrossOutcome.ok true ∧
        dget wid (set_gross_weight s orders wid).2.1.active_weighings = none ∧
        ∀ o ∈ (set_gross_weight s orders wid).2.2, o.OrderId = w.order_id →
          o.InitialWeight = some t ∧ o.FinalWeight = some cw ∧
            o.ActualQuantity = some (cw - t) ∧ o.Status = "Completed") ∧
      ((orders.filter (fun o => o.OrderId = w.order_id)).length ≠ 1 →
        (set_gross_weight s orders wid).1 = GrossOutcome.persistRaise ∧
          dget wid (set_gross_weight s orders wid).2.1.active_weighings
            = some { w with
                      gross_weight := some cw
                      net_weight := some (cw - t)
                      status := "Completed" }) := by
  constructor
  · intro hone
    unfold set_gross_weight
    rw [hw, hcw]
    dsimp only
    rw [ht]
    dsimp only
    rw [hone, if_pos rfl]
    refine ⟨rfl, ?_, ?_⟩
    · dsimp only
      exact dget_filter_not_key wid _
    · intro o ho hid
      dsimp only at ho
      rcases List.mem_map.mp ho with ⟨x, hx, rfl⟩
      by_cases hxid : x.OrderId = w.order_id
      · simp [hxid]
      · rw [if_neg (by simpa using hxid)] at hid ⊢
        exact absurd hid hxid
  · intro hnone
    unfold set_gross_weight
    rw [hw, hcw]
    dsimp only
    rw [ht]
    dsimp only
    rw [if_neg hnone]
    refine ⟨rfl, ?_⟩
    dsimp only
    rw [dget_dsetList]
    exact if_pos rfl

/-- Witness for the amended C2 at a concrete success and a concrete
failure: with the one-row table the session completes and is removed and
the order carries tare 1000, gross 5000, net 4000 and Completed; with the
empty table the call ends in the raised persistence failure with the
session retained (status already Completed). -/
theorem set_gross_weight_persistence_witness :
    ((set_gross_weight sWithTare [orderClaimed] 1).1 = GrossOutcome.ok true ∧
        dget 1 (set_gross_weight sWithTare [orderClaimed] 1).2.1.active_weighings = none) ∧
      ((set_gross_weight sWithTare [] 1).1 = GrossOutcome.persistRaise ∧
        dget 1 (set_gross_weight sWithTare [] 1).2.1.active_weighings
          = some { wWithTare with
                    gross_weight := some 5000
                    net_weight := some (5000 - 1000)
                    status := "Completed" }) := by
  constructor
  · have h := (set_gross_weight_persistence sWithTare [orderClaimed] 1 wWithTare 1000 5000
      rfl rfl rfl).1 (by simp [orderClaimed, wWithTare, wNoTare])
    exact ⟨h.1, h.2.1⟩
  · exact (set_gross_weight_persistence sWithTare [] 1 wWithTare 1000 5000
      rfl rfl rfl).2 (by simp)

/-! ## Claim C10 -/

/-- C10: `active_weighings` is keyed by weighbridge id and key-uniqueness
is preserved by `start_new_weighing` (at most one active session per
weighbridge); for a weighbridge that *already* has an InProgress session,
`start_new_weighing` on an available order does not fail: it returns
`True` and silently replaces the existing session with the new one,
leaving the key set unchanged. -/
theorem start_weighing_replaces_session (s : WeighbridgeState) (orders : List OrderRow)
    (wid oid did : ℕ) (lic : String) (wOld : Weighing) (o : OrderRow)
    (hnd : (s.active_weighings.map Prod.fst).Nodup)
    (hold : dget wid s.active_weighings = some wOld)
    (hfilter : orders.filter (fun x => x.OrderId = oid) = [o])
    (hstatus : orderStatusAvailable o.Status = true) :
    (start_new_weighing s orders orders wid oid did lic).1 = true ∧
      (start_new_weighing s orders orders wid oid did lic).2.1.active_weighings.map Prod.fst
        = s.active_weighings.map Prod.fst ∧
      ((start_new_weighing s orders orders wid oid did lic).2.1.active_weighings.map
          Prod.fst).Nodup ∧
      dget wid (start_new_weighing s orders orders wid oid did lic).2.1.active_weighings
        = some { order_id := oid, weighbridge_id := wid, driver_id := did,
                 vehicle_license := lic, product_id := o.ProductId,
                 planned_quantity := o.PlannedQuantity, status := "InProgress",
                 current_weight := (dget wid s.current_weights).getD 0 } := by
  rw [start_new_weighing_success s orders wid oid did lic o hfilter hstatus]
  have hkeys : (dsetList wid
      { order_id := oid, weighbridge_id := wid, driver_id := did,
        vehicle_license := lic, product_id := o.ProductId,
        planned_quantity := o.PlannedQuantity, status := "InProgress",
        current_weight := (dget wid s.current_weights).getD 0 }
      s.active_weighings).map Prod.fst = s.active_weighings.map Prod.fst := by
    rw [keys_dsetList]
    exact if_pos (dget_some_mem_keys wid wOld s.active_weighings hold)
  refine ⟨rfl, hkeys, ?_, ?_⟩
  · rw [hkeys]
    exact hnd
  · rw [dget_dsetList]
    exact if_pos rfl

/-- Witness for C10: starting a weighing on weighbridge 1 — which already
holds the tare-less session — succeeds and replaces that session with one
for order 7. -/
theorem start_weighing_replaces_session_witness :
    (start_new_weighing sNoTare [orderPending] [orderPending] 1 7 5 "B 2").1 = true ∧
      (dget 1 (start_new_weighing sNoTare [orderPending] [orderPending]
          1 7 5 "B 2").2.1.active_weighings).map (fun w => w.driver_id) = some 5 := by
  have h := start_weighing_replaces_session sNoTare [orderPending] 1 7 5 "B 2" wNoTare
    orderPending (by simp [sNoTare]) rfl (by simp [orderPending])
    (by simp [orderPending, orderStatusAvailable])
  refine ⟨h.1, ?_⟩
  rw [h.2.2.2]
  rfl

end TMSV2
